import Mathlib

/-!
Verification of the benchmark metrics aggregation and reporting engine
(`inference/benchmark/common/metrics.py`).

Modelling conventions of the shallow embedding:
* Python `float` is modelled as `ℚ` (all divisions in the source are exact
  at the inputs the properties mention, and every division is guarded).
* Python `int` fields holding token counts and configuration sizes are
  modelled as `ℕ` (the data model documents them as non-negative integers).
* `Optional[float]` is `Option ℚ`; `Optional[str]` is `Option String`.
* Python exceptions are modelled with `Except PyErr`; a function that can
  raise returns `Except PyErr α`.
* Python truthiness of an `Optional[float]` value (`if m.decode_time:`) is
  true exactly for `some x` with `x ≠ 0`.
* Python dicts keyed by strings are association lists preserving key
  insertion order; `sorted` on their items is a stable sort by key.
-/

/-- Python exception classes that the modelled code can raise. -/
inductive PyErr where
  | typeError
  | runtimeError
deriving DecidableEq

/-- The `BenchmarkMetrics` dataclass: one benchmark run observation.
Field order follows the dataclass declaration. Fields that default to
`None` in the source default to `none` here. -/
structure BenchmarkMetrics where
  experiment_id : String
  timestamp : String
  model_name : String
  instance_type : String
  hardware_type : String
  serving_mode : String
  batch_size : ℕ
  input_length : ℕ
  max_output_tokens : ℕ
  enable_prefix_caching : Bool
  temperature : ℚ
  top_p : ℚ
  total_time : ℚ
  prefill_time : Option ℚ := none
  decode_time : Option ℚ := none
  first_token_latency : Option ℚ := none
  actual_input_tokens : ℕ := 0
  actual_output_tokens : ℕ := 0
  tokens_per_second : Option ℚ := none
  time_per_token : Option ℚ := none
  inter_token_latency : Option ℚ := none
  memory_used_mb : Option ℚ := none
  peak_memory_mb : Option ℚ := none
  cache_hit_rate : Option ℚ := none
  error : Option String := none
  notes : Option String := none
deriving DecidableEq

/-- First statement of `compute_derived_metrics`: the guarded assignment of
`tokens_per_second` and `time_per_token`
(`if self.actual_output_tokens > 0 and self.total_time > 0:`). -/
def deriveThroughput (m : BenchmarkMetrics) : BenchmarkMetrics :=
  if 0 < m.actual_output_tokens ∧ 0 < m.total_time then
    { m with
      tokens_per_second := some ((m.actual_output_tokens : ℚ) / m.total_time),
      time_per_token := some ((m.total_time * 1000) / (m.actual_output_tokens : ℚ)) }
  else m

/-- Second statement of `compute_derived_metrics`: the guarded assignment of
`inter_token_latency` (`if self.decode_time and self.actual_output_tokens > 1:`).
Python truthiness of `self.decode_time` requires it to be present and non-zero. -/
def deriveInterToken (m : BenchmarkMetrics) : BenchmarkMetrics :=
  match m.decode_time with
  | some d =>
    if d ≠ 0 ∧ 1 < m.actual_output_tokens then
      { m with
        inter_token_latency := some ((d * 1000) / ((m.actual_output_tokens - 1 : ℕ) : ℚ)) }
    else m
  | none => m

/-- `BenchmarkMetrics.compute_derived_metrics`: runs the two guarded
assignments in source order. -/
def BenchmarkMetrics.compute_derived_metrics (m : BenchmarkMetrics) : BenchmarkMetrics :=
  deriveInterToken (deriveThroughput m)

/-- A convenient default record with the raw fields of the module self-test
(`__main__` block of metrics.py) as a base for concrete instances. -/
def sampleRecord : BenchmarkMetrics :=
  { experiment_id := "test_001"
    timestamp := "2025-01-01T00:00:00"
    model_name := "Qwen/Qwen3-0.6B-Instruct"
    instance_type := "g5.xlarge"
    hardware_type := "gpu"
    serving_mode := "offline"
    batch_size := 1
    input_length := 32
    max_output_tokens := 32
    enable_prefix_caching := false
    temperature := (7 : ℚ) / 10
    top_p := (9 : ℚ) / 10
    total_time := (5 : ℚ) / 2
    actual_input_tokens := 32
    actual_output_tokens := 28 }

/-- Like `sampleRecord` but with division-free numeric fields, so that all
guard conditions evaluate by kernel reduction. -/
def plainRecord : BenchmarkMetrics :=
  { experiment_id := "test_001"
    timestamp := "2025-01-01T00:00:00"
    model_name := "Qwen/Qwen3-0.6B-Instruct"
    instance_type := "g5.xlarge"
    hardware_type := "gpu"
    serving_mode := "offline"
    batch_size := 1
    input_length := 32
    max_output_tokens := 32
    enable_prefix_caching := false
    temperature := 1
    top_p := 1
    total_time := 2
    actual_input_tokens := 32
    actual_output_tokens := 20 }

/-- Concrete record for the C1 witness: `total_time = 2.0`,
`actual_output_tokens = 20`. -/
def c1WitnessRecord : BenchmarkMetrics :=
  { sampleRecord with total_time := 2, actual_output_tokens := 20 }

/-- Concrete record for the C1 witness, zero-output branch. -/
def c1ZeroRecord : BenchmarkMetrics :=
  { sampleRecord with actual_output_tokens := 0 }

/-- Concrete record refuting C4 as stated: `decode_time` present but equal
to `0.0`, `actual_output_tokens = 10`. -/
def c4CexRecord : BenchmarkMetrics :=
  { sampleRecord with decode_time := some 0, actual_output_tokens := 10 }

/-- Concrete record for the C4 witness: `decode_time = 1.8`,
`actual_output_tokens = 10`. -/
def c4WitnessRecord : BenchmarkMetrics :=
  { sampleRecord with decode_time := some ((9 : ℚ) / 5), actual_output_tokens := 10 }

/-- A Python value as produced by `dataclasses.asdict` on a
`BenchmarkMetrics` instance: `None`, a string, a rational (int or float),
or a boolean. -/
inductive PyValue where
  | null
  | str (v : String)
  | num (v : ℚ)
  | boolean (v : Bool)
deriving DecidableEq

/-- Serialization of an `Optional[float]` field: `None` becomes the
explicit `null` value. -/
def optNum : Option ℚ → PyValue
  | none => PyValue.null
  | some x => PyValue.num x

/-- Serialization of an `Optional[str]` field: `None` becomes the explicit
`null` value. -/
def optStr : Option String → PyValue
  | none => PyValue.null
  | some s => PyValue.str s

/-- `BenchmarkMetrics.to_dict`: `dataclasses.asdict(self)` — a flat
name-to-value mapping with one key per dataclass field, in field order. -/
def BenchmarkMetrics.to_dict (m : BenchmarkMetrics) : List (String × PyValue) :=
  [("experiment_id", PyValue.str m.experiment_id),
   ("timestamp", PyValue.str m.timestamp),
   ("model_name", PyValue.str m.model_name),
   ("instance_type", PyValue.str m.instance_type),
   ("hardware_type", PyValue.str m.hardware_type),
   ("serving_mode", PyValue.str m.serving_mode),
   ("batch_size", PyValue.num m.batch_size),
   ("input_length", PyValue.num m.input_length),
   ("max_output_tokens", PyValue.num m.max_output_tokens),
   ("enable_prefix_caching", PyValue.boolean m.enable_prefix_caching),
   ("temperature", PyValue.num m.temperature),
   ("top_p", PyValue.num m.top_p),
   ("total_time", PyValue.num m.total_time),
   ("prefill_time", optNum m.prefill_time),
   ("decode_time", optNum m.decode_time),
   ("first_token_latency", optNum m.first_token_latency),
   ("actual_input_tokens", PyValue.num m.actual_input_tokens),
   ("actual_output_tokens", PyValue.num m.actual_output_tokens),
   ("tokens_per_second", optNum m.tokens_per_second),
   ("time_per_token", optNum m.time_per_token),
   ("inter_token_latency", optNum m.inter_token_latency),
   ("memory_used_mb", optNum m.memory_used_mb),
   ("peak_memory_mb", optNum m.peak_memory_mb),
   ("cache_hit_rate", optNum m.cache_hit_rate),
   ("error", optStr m.error),
   ("notes", optStr m.notes)]

/-- The names of all 26 fields of the `BenchmarkMetrics` dataclass, in
declaration order. -/
def benchmarkFieldNames : List String :=
  ["experiment_id", "timestamp", "model_name", "instance_type", "hardware_type",
   "serving_mode", "batch_size", "input_length", "max_output_tokens",
   "enable_prefix_caching", "temperature", "top_p", "total_time", "prefill_time",
   "decode_time", "first_token_latency", "actual_input_tokens",
   "actual_output_tokens", "tokens_per_second", "time_per_token",
   "inter_token_latency", "memory_used_mb", "peak_memory_mb", "cache_hit_rate",
   "error", "notes"]

/-- State of the dual-sink recorder `MLflowMetricsCollector`: the inherited
local record list, the `use_mlflow` flag, and the optional tracker handle
(the handle itself is abstract — only its presence matters locally). -/
structure MLflowMetricsCollector where
  metrics : List BenchmarkMetrics
  use_mlflow : Bool
  mlflow_tracker : Option Unit

/-- `MLflowMetricsCollector.__init__`: the result of constructing a
`MLflowTracker` is abstracted as `trackerInit` (`.error e` when the sink
connection raises). Construction itself never raises: a failed tracker
initialization is caught, `use_mlflow` is forced to `false` and the
recorder degrades to JSON-only storage. `use_mlflow_arg` and
`mlflow_available` model the constructor argument and the module-level
availability flag. -/
def MLflowMetricsCollector.init (use_mlflow_arg mlflow_available : Bool)
    (trackerInit : Except PyErr Unit) : Except PyErr MLflowMetricsCollector :=
  let use := use_mlflow_arg && mlflow_available
  if use then
    match trackerInit with
    | Except.ok t => Except.ok ⟨[], true, some t⟩
    | Except.error _ => Except.ok ⟨[], false, none⟩
  else Except.ok ⟨[], use, none⟩

/-- `MLflowMetricsCollector.add_metric`: first the parent
`MetricsCollector.add_metric` computes derived metrics and appends to the
local list; then, if MLflow is enabled, the record is forwarded via
`log_metric` (abstracted as `forward`), and any exception it raises is
caught and does not propagate. -/
def MLflowMetricsCollector.add_metric (c : MLflowMetricsCollector)
    (m : BenchmarkMetrics) (forward : BenchmarkMetrics → Except PyErr Unit) :
    Except PyErr MLflowMetricsCollector :=
  let m2 := m.compute_derived_metrics
  let c2 : MLflowMetricsCollector := { c with metrics := c.metrics ++ [m2] }
  if c2.use_mlflow && c2.mlflow_tracker.isSome then
    match forward m2 with
    | Except.ok _ => Except.ok c2
    | Except.error _ => Except.ok c2
  else Except.ok c2

/-- File-system state relevant to the `env_info` block of
`MLflowTracker.log_metric`: whether the temporary snapshot file
(`/tmp/env_info_<experiment_id>.json`) exists. -/
structure FsState where
  tempExists : Bool
deriving DecidableEq

/-- The `open(env_info_path, 'w')` and `json.dump` calls: they create the
temporary file. -/
def writeTempFile (_s : FsState) : FsState := ⟨true⟩

/-- `os.remove(env_info_path)`: removes the temporary file. -/
def removeTempFile (_s : FsState) : FsState := ⟨false⟩

/-- The `if env_info:` block of `MLflowTracker.log_metric` (the snapshot is
supplied): write the snapshot to the temporary file, call
`mlflow.log_artifact` (abstracted as the state-passing, possibly raising
`upload`), then `os.remove` the file. The three statements are sequential
with no `try`/`finally`: an exception from the upload propagates
immediately and the removal never runs. -/
def logEnvInfoBlock (upload : FsState → FsState × Except PyErr Unit)
    (s : FsState) : FsState × Except PyErr Unit :=
  let s1 := writeTempFile s
  match upload s1 with
  | (s2, Except.ok _) => (removeTempFile s2, Except.ok ())
  | (s2, Except.error e) => (s2, Except.error e)

/-- Concrete upload that raises (an unreachable tracking server). -/
def failingUpload (e : PyErr) : FsState → FsState × Except PyErr Unit :=
  fun s => (s, Except.error e)

/-- `MetricsCollector`: the in-memory list of records (the results
directory and file writing are outside the modelled summary computations). -/
structure MetricsCollector where
  metrics : List BenchmarkMetrics

/-- `MetricsCollector.add_metric`: computes derived metrics on the record
and appends it to the collection. -/
def MetricsCollector.add_metric (c : MetricsCollector) (m : BenchmarkMetrics) :
    MetricsCollector :=
  ⟨c.metrics ++ [m.compute_derived_metrics]⟩

/-- One step of Python dict grouping: `groups[key].append(metric)` with
`groups[key] = []` on first sight of the key; new keys are added at the
end (dict preserves insertion order). -/
def addToGroups (k : String) (m : BenchmarkMetrics) :
    List (String × List BenchmarkMetrics) → List (String × List BenchmarkMetrics)
  | [] => [(k, [m])]
  | (k0, g) :: rest =>
    if k0 = k then (k0, g ++ [m]) :: rest else (k0, g) :: addToGroups k m rest

/-- The grouping loops of `save_summary` / `print_summary`: fold the record
list into a key-indexed association list, keys in first-occurrence order,
records of a group in insertion order. -/
def buildGroups (key : BenchmarkMetrics → String) (ms : List BenchmarkMetrics) :
    List (String × List BenchmarkMetrics) :=
  ms.foldl (fun gs m => addToGroups (key m) m gs) []

/-- Lookup of a group by key (empty list when the key is absent). -/
def groupOf (gs : List (String × List BenchmarkMetrics)) (k : String) :
    List BenchmarkMetrics :=
  match gs with
  | [] => []
  | (k0, g) :: rest => if k0 = k then g else groupOf rest k

/-- Python `str(bool)` as used by an f-string. -/
def pyBool : Bool → String
  | true => "True"
  | false => "False"

/-- The six-field composite group key string of `save_summary`:
`f"{instance_type}_{serving_mode}_bs{batch_size}_in{input_length}_out{max_output_tokens}_cache{enable_prefix_caching}"`. -/
def sixKey (m : BenchmarkMetrics) : String :=
  m.instance_type ++ "_" ++ m.serving_mode ++ "_bs" ++ toString m.batch_size ++
  "_in" ++ toString m.input_length ++ "_out" ++ toString m.max_output_tokens ++
  "_cache" ++ pyBool m.enable_prefix_caching

/-- The two-field group key string of `print_summary`:
`f"{instance_type}_{serving_mode}"`. -/
def pairKey (m : BenchmarkMetrics) : String :=
  m.instance_type ++ "_" ++ m.serving_mode

/-- The six-field configuration tuple the spec says `save_summary` groups
by. -/
def configKey (m : BenchmarkMetrics) : String × String × ℕ × ℕ × ℕ × Bool :=
  (m.instance_type, m.serving_mode, m.batch_size, m.input_length,
   m.max_output_tokens, m.enable_prefix_caching)

/-- The `{mean, min, max}` statistics object of one metric in a summary
group. -/
structure StatTriple where
  mean : Option ℚ
  min : Option ℚ
  max : Option ℚ
deriving DecidableEq

/-- `mean/min/max` of a value list as computed by `save_summary`:
`sum(lst)/len(lst)`, `min(lst)`, `max(lst)` when the list is non-empty,
all `None` otherwise (`if lst else None`). -/
def statsOf : List ℚ → StatTriple
  | [] => ⟨none, none, none⟩
  | v :: vs =>
    ⟨some ((v :: vs).sum / ((v :: vs).length : ℚ)),
     some (vs.foldl min v), some (vs.foldl max v)⟩

/-- The list comprehension `[sel(m) for m in g if sel(m)]`: keeps the value
of the selected optional field for the records where it is truthy
(present and non-zero). -/
def truthyVals (sel : BenchmarkMetrics → Option ℚ) (g : List BenchmarkMetrics) :
    List ℚ :=
  g.filterMap (fun m =>
    match sel m with
    | some x => if x ≠ 0 then some x else none
    | none => none)

/-- One group entry of the summary written by `save_summary`. -/
structure SummaryEntry where
  count : ℕ
  instance_type : String
  serving_mode : String
  batch_size : ℕ
  input_length : ℕ
  max_output_tokens : ℕ
  enable_prefix_caching : Bool
  tokens_per_second : StatTriple
  time_per_token_ms : StatTriple
  first_token_latency_sec : StatTriple
deriving DecidableEq

/-- The per-group statistics block of `save_summary` (`if not metrics_list:
continue` yields `none` for an empty group; configuration fields are taken
from the first record of the group). -/
def summaryOfGroup : List BenchmarkMetrics → Option SummaryEntry
  | [] => none
  | m0 :: rest =>
    some
      { count := (m0 :: rest).length
        instance_type := m0.instance_type
        serving_mode := m0.serving_mode
        batch_size := m0.batch_size
        input_length := m0.input_length
        max_output_tokens := m0.max_output_tokens
        enable_prefix_caching := m0.enable_prefix_caching
        tokens_per_second :=
          statsOf (truthyVals (fun m => m.tokens_per_second) (m0 :: rest))
        time_per_token_ms :=
          statsOf (truthyVals (fun m => m.time_per_token) (m0 :: rest))
        first_token_latency_sec :=
          statsOf (truthyVals (fun m => m.first_token_latency) (m0 :: rest)) }

/-- `MetricsCollector.save_summary`: the `summary` mapping it writes —
records grouped by the six-field key string, with one statistics entry per
non-empty group, in key first-occurrence order. (The surrounding file
write and `metadata` block carry no grouping logic.) -/
def MetricsCollector.save_summary (c : MetricsCollector) :
    List (String × SummaryEntry) :=
  (buildGroups sixKey c.metrics).filterMap
    (fun p => (summaryOfGroup p.2).map (fun e => (p.1, e)))

/-- The statistics contract of one `StatTriple` against the value list it
was computed from: all `None` when the list is empty; otherwise the mean is
`sum/len` and min/max are attained elements bounding the list. -/
def withStats (st : StatTriple) (vals : List ℚ) : Prop :=
  (vals = [] → st = ⟨none, none, none⟩) ∧
  (vals ≠ [] →
    st.mean = some (vals.sum / (vals.length : ℚ)) ∧
    (∃ a ∈ vals, st.min = some a ∧ ∀ b ∈ vals, a ≤ b) ∧
    (∃ a ∈ vals, st.max = some a ∧ ∀ b ∈ vals, b ≤ a))

/-- Insertion step of the stable sort modelling Python `sorted` on the
group items (keys are distinct, so comparison is by key). -/
def insertPair (p : String × List BenchmarkMetrics) :
    List (String × List BenchmarkMetrics) → List (String × List BenchmarkMetrics)
  | [] => [p]
  | q :: rest => if p.1 ≤ q.1 then p :: q :: rest else q :: insertPair p rest

/-- `sorted(groups.items())`: sort the group association list by key. -/
def sortPairs : List (String × List BenchmarkMetrics) →
    List (String × List BenchmarkMetrics)
  | [] => []
  | p :: rest => insertPair p (sortPairs rest)

/-- The data shown by one formatted line of `print_summary` (the field
values interpolated into the fixed-width f-string). -/
structure SummaryLine where
  batch_size : ℕ
  input_length : ℕ
  actual_output_tokens : ℕ
  max_output_tokens : ℕ
  cacheMark : String
  tokens_per_second : ℚ
  time_per_token : ℚ
deriving DecidableEq

/-- Formatting one record line of `print_summary`. Interpolating `None`
with the float format spec `:6.2f` raises `TypeError`, so formatting
requires both `tokens_per_second` and `time_per_token` to be present. -/
def formatLine (m : BenchmarkMetrics) : Except PyErr SummaryLine :=
  match m.tokens_per_second, m.time_per_token with
  | some tps, some tpt =>
    Except.ok
      { batch_size := m.batch_size
        input_length := m.input_length
        actual_output_tokens := m.actual_output_tokens
        max_output_tokens := m.max_output_tokens
        cacheMark := if m.enable_prefix_caching then "✓" else "✗"
        tokens_per_second := tps
        time_per_token := tpt }
  | _, _ => Except.error PyErr.typeError

/-- Monadic map over `Except`: stops at the first raising element, like the
printing loop of `print_summary`. -/
def mapExcept (f : α → Except PyErr β) : List α → Except PyErr (List β)
  | [] => Except.ok []
  | a :: l =>
    match f a with
    | Except.error e => Except.error e
    | Except.ok b =>
      match mapExcept f l with
      | Except.error e => Except.error e
      | Except.ok bs => Except.ok (b :: bs)

/-- Observable output of `print_summary`: either the informational
no-records message, or a report of the run count and the per-group record
lines. -/
inductive PrintedSummary where
  | noMetrics
  | report (runs : ℕ) (groups : List (String × List SummaryLine))
deriving DecidableEq

/-- `MetricsCollector.print_summary`: with no records, only the
informational message; otherwise group by the two-field key string, sort
groups by key, and print every record of every group in insertion order,
propagating any formatting exception. -/
def MetricsCollector.print_summary (c : MetricsCollector) :
    Except PyErr PrintedSummary :=
  match c.metrics with
  | [] => Except.ok PrintedSummary.noMetrics
  | _ :: _ =>
    match
      mapExcept (fun p => (mapExcept formatLine p.2).map (fun lines => (p.1, lines)))
        (sortPairs (buildGroups pairKey c.metrics)) with
    | Except.error e => Except.error e
    | Except.ok out => Except.ok (PrintedSummary.report c.metrics.length out)

/-- Base record for concrete grouping/printing instances: derived fields
preset and `actual_output_tokens = 0`, so `compute_derived_metrics` leaves
the record unchanged and every field is a plain literal. -/
def presetRecord : BenchmarkMetrics :=
  { plainRecord with
    actual_output_tokens := 0
    tokens_per_second := some 10
    time_per_token := some 100 }

/-- C2 counterexample record: a raw `first_token_latency` of `0.0` —
non-null, but excluded by the truthiness filter of `save_summary`. -/
def c2CexRecord : BenchmarkMetrics :=
  { presetRecord with first_token_latency := some 0 }

/-- Collector holding only `c2CexRecord`. -/
def c2CexCollector : MetricsCollector :=
  (MetricsCollector.mk []).add_metric c2CexRecord

/-- C2 witness record: `first_token_latency = 1.0`. -/
def c2WitnessRecord : BenchmarkMetrics :=
  { presetRecord with first_token_latency := some 1 }

/-- Collector holding only `c2WitnessRecord`. -/
def c2WitnessCollector : MetricsCollector :=
  (MetricsCollector.mk []).add_metric c2WitnessRecord

/-- The six-field key string of `presetRecord`. -/
def presetKey : String := "g5.xlarge_offline_bs1_in32_out32_cacheFalse"

/-- The summary entry `save_summary` produces for the C2 witness group. -/
def c2WitnessEntry : SummaryEntry :=
  { count := 1
    instance_type := "g5.xlarge"
    serving_mode := "offline"
    batch_size := 1
    input_length := 32
    max_output_tokens := 32
    enable_prefix_caching := false
    tokens_per_second := ⟨some 10, some 10, some 10⟩
    time_per_token_ms := ⟨some 100, some 100, some 100⟩
    first_token_latency_sec := ⟨some 1, some 1, some 1⟩ }

/-- C5 counterexample record 1: `instance_type` containing an underscore. -/
def c5CexR1 : BenchmarkMetrics :=
  { presetRecord with instance_type := "a_b", serving_mode := "c" }

/-- C5 counterexample record 2: a different six-field configuration that
produces the same composite key string as `c5CexR1`. -/
def c5CexR2 : BenchmarkMetrics :=
  { presetRecord with instance_type := "a", serving_mode := "b_c" }

/-- Collector holding the two colliding-key records. -/
def c5CexCollector : MetricsCollector :=
  ((MetricsCollector.mk []).add_metric c5CexR1).add_metric c5CexR2

/-- C5 witness record: batch size 2 configuration. -/
def c5WitnessR2 : BenchmarkMetrics :=
  { presetRecord with batch_size := 2 }

/-- C5 witness collector: two records of the batch-1 configuration and one
of the batch-2 configuration. -/
def c5WitnessCollector : MetricsCollector :=
  (((MetricsCollector.mk []).add_metric presetRecord).add_metric
    presetRecord).add_metric c5WitnessR2

/-- The six-field key string of `c5WitnessR2`. -/
def c5WitnessKey2 : String := "g5.xlarge_offline_bs2_in32_out32_cacheFalse"

/-- C8/C10 record whose derived metrics stay `None`
(`actual_output_tokens = 0`). -/
def zeroOutputRecord : BenchmarkMetrics :=
  { plainRecord with actual_output_tokens := 0 }

/-- Collector holding only `zeroOutputRecord` (built through `add_metric`,
so its state is reachable). -/
def zeroOutputCollector : MetricsCollector :=
  (MetricsCollector.mk []).add_metric zeroOutputRecord

/-- C8 witness records: three runs of one `(instance_type, serving_mode)`
configuration with varying batch sizes. -/
def c8Rec (bs : ℕ) : BenchmarkMetrics :=
  { presetRecord with batch_size := bs }

/-- C8 witness collector: three records of one two-field configuration. -/
def c8WitnessCollector : MetricsCollector :=
  (((MetricsCollector.mk []).add_metric (c8Rec 1)).add_metric
    (c8Rec 2)).add_metric (c8Rec 4)

/-! ## Theorems -/

/-! ### Characterization and field-preservation lemmas for the two guarded
assignments of `compute_derived_metrics` -/

theorem deriveThroughput_eq_of_pos (m : BenchmarkMetrics)
    (h : 0 < m.actual_output_tokens ∧ 0 < m.total_time) :
    deriveThroughput m =
      { m with
        tokens_per_second := some ((m.actual_output_tokens : ℚ) / m.total_time),
        time_per_token := some ((m.total_time * 1000) / (m.actual_output_tokens : ℚ)) } := by
  unfold deriveThroughput
  exact if_pos h

theorem deriveThroughput_eq_of_neg (m : BenchmarkMetrics)
    (h : ¬(0 < m.actual_output_tokens ∧ 0 < m.total_time)) :
    deriveThroughput m = m := by
  unfold deriveThroughput
  exact if_neg h

theorem deriveThroughput_actual_output_tokens (m : BenchmarkMetrics) :
    (deriveThroughput m).actual_output_tokens = m.actual_output_tokens := by
  unfold deriveThroughput; split <;> rfl

theorem deriveThroughput_total_time (m : BenchmarkMetrics) :
    (deriveThroughput m).total_time = m.total_time := by
  unfold deriveThroughput; split <;> rfl

theorem deriveThroughput_decode_time (m : BenchmarkMetrics) :
    (deriveThroughput m).decode_time = m.decode_time := by
  unfold deriveThroughput; split <;> rfl

theorem deriveThroughput_inter_token_latency (m : BenchmarkMetrics) :
    (deriveThroughput m).inter_token_latency = m.inter_token_latency := by
  unfold deriveThroughput; split <;> rfl

theorem deriveInterToken_eq_of_none (m : BenchmarkMetrics)
    (hd : m.decode_time = none) : deriveInterToken m = m := by
  unfold deriveInterToken
  rw [hd]

theorem deriveInterToken_eq_of_pos (m : BenchmarkMetrics) (d : ℚ)
    (hd : m.decode_time = some d) (h : d ≠ 0 ∧ 1 < m.actual_output_tokens) :
    deriveInterToken m =
      { m with
        inter_token_latency :=
          some ((d * 1000) / ((m.actual_output_tokens - 1 : ℕ) : ℚ)) } := by
  unfold deriveInterToken
  rw [hd]
  exact if_pos h

theorem deriveInterToken_eq_of_neg (m : BenchmarkMetrics) (d : ℚ)
    (hd : m.decode_time = some d) (h : ¬(d ≠ 0 ∧ 1 < m.actual_output_tokens)) :
    deriveInterToken m = m := by
  unfold deriveInterToken
  rw [hd]
  exact if_neg h

theorem deriveInterToken_tokens_per_second (m : BenchmarkMetrics) :
    (deriveInterToken m).tokens_per_second = m.tokens_per_second := by
  unfold deriveInterToken
  cases hd : m.decode_time with
  | none => rfl
  | some d => dsimp only; split <;> rfl

theorem deriveInterToken_time_per_token (m : BenchmarkMetrics) :
    (deriveInterToken m).time_per_token = m.time_per_token := by
  unfold deriveInterToken
  cases hd : m.decode_time with
  | none => rfl
  | some d => dsimp only; split <;> rfl

theorem deriveInterToken_decode_time (m : BenchmarkMetrics) :
    (deriveInterToken m).decode_time = m.decode_time := by
  obtain ⟨eid, ts, mn, it, ht, sm, bs, il, mot, epc, temp, tp, tt, pt, dt, ftl, ait, aot,
    tps, tpt, itl, mum, pmm, chr, er, nt⟩ := m
  cases dt with
  | none => rfl
  | some d => simp only [deriveInterToken]; split <;> rfl

theorem deriveInterToken_actual_output_tokens (m : BenchmarkMetrics) :
    (deriveInterToken m).actual_output_tokens = m.actual_output_tokens := by
  obtain ⟨eid, ts, mn, it, ht, sm, bs, il, mot, epc, temp, tp, tt, pt, dt, ftl, ait, aot,
    tps, tpt, itl, mum, pmm, chr, er, nt⟩ := m
  cases dt with
  | none => rfl
  | some d => simp only [deriveInterToken]; split <;> rfl

theorem deriveInterToken_total_time (m : BenchmarkMetrics) :
    (deriveInterToken m).total_time = m.total_time := by
  obtain ⟨eid, ts, mn, it, ht, sm, bs, il, mot, epc, temp, tp, tt, pt, dt, ftl, ait, aot,
    tps, tpt, itl, mum, pmm, chr, er, nt⟩ := m
  cases dt with
  | none => rfl
  | some d => simp only [deriveInterToken]; split <;> rfl

/-! ### C1: throughput formulas -/

/-- C1: after `compute_derived_metrics`, `tokens_per_second` is
`actual_output_tokens / total_time` and `time_per_token` is
`total_time * 1000 / actual_output_tokens` whenever both raw inputs are
positive, and both derived fields are left `None` when
`actual_output_tokens == 0` or `total_time <= 0`. -/
theorem c1_throughput_formulas (m : BenchmarkMetrics) :
    (0 < m.actual_output_tokens ∧ 0 < m.total_time →
      (m.compute_derived_metrics).tokens_per_second
          = some ((m.actual_output_tokens : ℚ) / m.total_time) ∧
      (m.compute_derived_metrics).time_per_token
          = some ((m.total_time * 1000) / (m.actual_output_tokens : ℚ))) ∧
    ((m.actual_output_tokens = 0 ∨ m.total_time ≤ 0) →
      m.tokens_per_second = none → m.time_per_token = none →
      (m.compute_derived_metrics).tokens_per_second = none ∧
      (m.compute_derived_metrics).time_per_token = none) := by
  constructor
  · intro h
    rw [BenchmarkMetrics.compute_derived_metrics, deriveInterToken_tokens_per_second,
      deriveInterToken_time_per_token, deriveThroughput_eq_of_pos m h]
    exact ⟨rfl, rfl⟩
  · intro h h1 h2
    have hneg : ¬(0 < m.actual_output_tokens ∧ 0 < m.total_time) := by
      rcases h with h | h
      · intro hc; omega
      · intro hc; exact absurd hc.2 (not_lt.mpr h)
    rw [BenchmarkMetrics.compute_derived_metrics, deriveInterToken_tokens_per_second,
      deriveInterToken_time_per_token, deriveThroughput_eq_of_neg m hneg]
    exact ⟨h1, h2⟩

/-- C1 witness: the theorem applied at `total_time = 2.0`,
`actual_output_tokens = 20` yields `tokens_per_second = 10.0` and
`time_per_token = 100.0`; at `actual_output_tokens = 0` both stay `None`. -/
theorem c1_throughput_formulas_inst :
    (c1WitnessRecord.compute_derived_metrics).tokens_per_second = some 10 ∧
    (c1WitnessRecord.compute_derived_metrics).time_per_token = some 100 ∧
    (c1ZeroRecord.compute_derived_metrics).tokens_per_second = none ∧
    (c1ZeroRecord.compute_derived_metrics).time_per_token = none := by
  have h1 := (c1_throughput_formulas c1WitnessRecord).1
    (by constructor <;> norm_num [c1WitnessRecord, sampleRecord])
  have h2 := (c1_throughput_formulas c1ZeroRecord).2 (Or.inl rfl) rfl rfl
  refine ⟨?_, ?_, h2.1, h2.2⟩
  · rw [h1.1]
    norm_num [c1WitnessRecord, sampleRecord]
  · rw [h1.2]
    norm_num [c1WitnessRecord, sampleRecord]

/-! ### C4: inter-token latency -/

/-- C4 (amended): after `compute_derived_metrics`, starting from an unset
`inter_token_latency`, the field is defined exactly when `decode_time` is
present *and non-zero* (Python truthiness) and `actual_output_tokens > 1`,
in which case it equals `decode_time * 1000 / (actual_output_tokens - 1)`. -/
theorem c4_inter_token_formula (m : BenchmarkMetrics)
    (h0 : m.inter_token_latency = none) :
    ((m.compute_derived_metrics).inter_token_latency ≠ none ↔
      (∃ d, m.decode_time = some d ∧ d ≠ 0) ∧ 1 < m.actual_output_tokens) ∧
    (∀ d, m.decode_time = some d → d ≠ 0 → 1 < m.actual_output_tokens →
      (m.compute_derived_metrics).inter_token_latency
        = some ((d * 1000) / ((m.actual_output_tokens - 1 : ℕ) : ℚ))) := by
  have hdt : (deriveThroughput m).decode_time = m.decode_time :=
    deriveThroughput_decode_time m
  have haot : (deriveThroughput m).actual_output_tokens = m.actual_output_tokens :=
    deriveThroughput_actual_output_tokens m
  have hitl : (deriveThroughput m).inter_token_latency = none := by
    rw [deriveThroughput_inter_token_latency]; exact h0
  constructor
  · rw [BenchmarkMetrics.compute_derived_metrics]
    cases hd : m.decode_time with
    | none =>
      rw [deriveInterToken_eq_of_none _ (hdt.trans hd), hitl]
      simp [hd]
    | some d =>
      by_cases hc : d ≠ 0 ∧ 1 < m.actual_output_tokens
      · rw [deriveInterToken_eq_of_pos _ d (hdt.trans hd) (by rw [haot]; exact hc)]
        simp only [ne_eq, reduceCtorEq, not_false_eq_true, true_iff]
        exact ⟨⟨d, rfl, hc.1⟩, hc.2⟩
      · rw [deriveInterToken_eq_of_neg _ d (hdt.trans hd) (by rw [haot]; exact hc), hitl]
        simp only [ne_eq, not_true_eq_false, false_iff]
        intro hcon
        rcases hcon with ⟨⟨d2, hd2, hdne⟩, hgt⟩
        cases hd2
        exact hc ⟨hdne, hgt⟩
  · intro d hd hdne hgt
    rw [BenchmarkMetrics.compute_derived_metrics,
      deriveInterToken_eq_of_pos _ d (hdt.trans hd) (by rw [haot]; exact ⟨hdne, hgt⟩), haot]

/-- C4 counterexample: `decode_time` is present (`= 0.0`) and
`actual_output_tokens = 10 > 1`, yet `inter_token_latency` is left `None`
by `compute_derived_metrics` — the claim says it would be defined. Python
truthiness of `if self.decode_time` rejects a present zero value. -/
theorem c4_inter_token_cex :
    c4CexRecord.decode_time = some 0 ∧ 1 < c4CexRecord.actual_output_tokens ∧
    c4CexRecord.inter_token_latency = none ∧
    (c4CexRecord.compute_derived_metrics).inter_token_latency = none := by
  refine ⟨rfl, by norm_num [c4CexRecord, sampleRecord], rfl, ?_⟩
  norm_num [BenchmarkMetrics.compute_derived_metrics, deriveThroughput, deriveInterToken,
    c4CexRecord, sampleRecord]

/-- C4 witness: the amended theorem applied at `decode_time = 1.8`,
`actual_output_tokens = 10` gives `inter_token_latency = 200.0` ms. -/
theorem c4_inter_token_formula_inst :
    (c4WitnessRecord.compute_derived_metrics).inter_token_latency = some 200 := by
  have h := (c4_inter_token_formula c4WitnessRecord rfl).2 ((9 : ℚ) / 5) rfl
    (by norm_num) (by norm_num [c4WitnessRecord, sampleRecord])
  rw [h]
  norm_num [c4WitnessRecord, sampleRecord]

/-! ### C6: idempotence of compute_derived_metrics -/

theorem deriveThroughput_idem (m : BenchmarkMetrics) :
    deriveThroughput (deriveThroughput m) = deriveThroughput m := by
  obtain ⟨eid, ts, mn, it, ht, sm, bs, il, mot, epc, temp, tp, tt, pt, dt, ftl, ait, aot,
    tps, tpt, itl, mum, pmm, chr, er, nt⟩ := m
  by_cases hp : 0 < aot ∧ 0 < tt <;>
    simp [deriveThroughput, hp]

theorem deriveInterToken_idem (m : BenchmarkMetrics) :
    deriveInterToken (deriveInterToken m) = deriveInterToken m := by
  obtain ⟨eid, ts, mn, it, ht, sm, bs, il, mot, epc, temp, tp, tt, pt, dt, ftl, ait, aot,
    tps, tpt, itl, mum, pmm, chr, er, nt⟩ := m
  cases dt with
  | none => rfl
  | some d =>
    by_cases hc : d ≠ 0 ∧ 1 < aot <;>
      simp [deriveInterToken, hc]

theorem deriveThroughput_deriveInterToken_comm (m : BenchmarkMetrics) :
    deriveThroughput (deriveInterToken m) = deriveInterToken (deriveThroughput m) := by
  obtain ⟨eid, ts, mn, it, ht, sm, bs, il, mot, epc, temp, tp, tt, pt, dt, ftl, ait, aot,
    tps, tpt, itl, mum, pmm, chr, er, nt⟩ := m
  cases dt with
  | none =>
    by_cases hp : 0 < aot ∧ 0 < tt <;>
      simp [deriveThroughput, deriveInterToken, hp]
  | some d =>
    by_cases hc : d ≠ 0 ∧ 1 < aot <;> by_cases hp : 0 < aot ∧ 0 < tt <;>
      simp [deriveThroughput, deriveInterToken, hc, hp]

/-- C6: `compute_derived_metrics` is idempotent — calling it twice yields
the same record (hence the same derived values) as calling it once. -/
theorem c6_compute_idempotent (m : BenchmarkMetrics) :
    (m.compute_derived_metrics).compute_derived_metrics = m.compute_derived_metrics := by
  show deriveInterToken (deriveThroughput (deriveInterToken (deriveThroughput m)))
    = deriveInterToken (deriveThroughput m)
  rw [deriveThroughput_deriveInterToken_comm, deriveThroughput_idem, deriveInterToken_idem]

/-! ### C7: to_dict -/

/-- C7: `to_dict` returns a flat mapping with a key for every field of the
record (key presence is guaranteed: the key list is exactly the field-name
list, independent of the record), and absent optional fields map to the
explicit `null` value rather than being omitted
(`optNum none = null`, `optStr none = null`). -/
theorem c7_to_dict_total_keys (m : BenchmarkMetrics) :
    (m.to_dict).map Prod.fst = benchmarkFieldNames ∧
    (∀ name ∈ benchmarkFieldNames, ∃ v, (m.to_dict).lookup name = some v) ∧
    (m.to_dict).lookup "prefill_time" = some (optNum m.prefill_time) ∧
    (m.to_dict).lookup "decode_time" = some (optNum m.decode_time) ∧
    (m.to_dict).lookup "first_token_latency" = some (optNum m.first_token_latency) ∧
    (m.to_dict).lookup "tokens_per_second" = some (optNum m.tokens_per_second) ∧
    (m.to_dict).lookup "time_per_token" = some (optNum m.time_per_token) ∧
    (m.to_dict).lookup "inter_token_latency" = some (optNum m.inter_token_latency) ∧
    (m.to_dict).lookup "memory_used_mb" = some (optNum m.memory_used_mb) ∧
    (m.to_dict).lookup "peak_memory_mb" = some (optNum m.peak_memory_mb) ∧
    (m.to_dict).lookup "cache_hit_rate" = some (optNum m.cache_hit_rate) ∧
    (m.to_dict).lookup "error" = some (optStr m.error) ∧
    (m.to_dict).lookup "notes" = some (optStr m.notes) ∧
    optNum none = PyValue.null ∧ optStr none = PyValue.null := by
  refine ⟨rfl, ?_, ?_⟩
  · intro name hname
    fin_cases hname <;> exact ⟨_, rfl⟩
  · refine ⟨?_, ?_, ?_, ?_, ?_, ?_, ?_, ?_, ?_, ?_, ?_, rfl, rfl⟩ <;> rfl

/-! ### C3: dual-sink recorder (MLflowMetricsCollector) -/

/-- C3: (i) a raising sink connection does not make construction raise and
degrades the recorder to local-only (`use_mlflow = false`, no tracker);
(ii) construction never raises for any sink outcome; (iii) `add_metric`
never raises — any forwarding exception is caught — and always appends the
(derived-computed) record to the local list, growing it by exactly one. -/
theorem c3_dual_sink_resilience :
    (∀ e : PyErr, MLflowMetricsCollector.init true true (Except.error e)
        = Except.ok ⟨[], false, none⟩) ∧
    (∀ (a b : Bool) (init : Except PyErr Unit), ∃ c,
        MLflowMetricsCollector.init a b init = Except.ok c) ∧
    (∀ (c : MLflowMetricsCollector) (m : BenchmarkMetrics)
        (forward : BenchmarkMetrics → Except PyErr Unit),
      c.add_metric m forward
          = Except.ok { c with metrics := c.metrics ++ [m.compute_derived_metrics] } ∧
      (c.add_metric m forward).map (fun r => r.metrics.length)
          = Except.ok (c.metrics.length + 1)) := by
  refine ⟨fun e => rfl, ?_, ?_⟩
  · intro a b init
    unfold MLflowMetricsCollector.init
    by_cases hu : (a && b) = true
    · rw [if_pos hu]
      cases init with
      | ok t => exact ⟨_, rfl⟩
      | error e => exact ⟨_, rfl⟩
    · rw [if_neg hu]
      exact ⟨_, rfl⟩
  · intro c m forward
    have h : c.add_metric m forward
        = Except.ok { c with metrics := c.metrics ++ [m.compute_derived_metrics] } := by
      unfold MLflowMetricsCollector.add_metric
      dsimp only
      split
      · cases forward m.compute_derived_metrics with
        | ok u => rfl
        | error e => rfl
      · rfl
    refine ⟨h, ?_⟩
    rw [h]
    show Except.ok ((c.metrics ++ [m.compute_derived_metrics]).length) = _
    rw [List.length_append]
    rfl

/-! ### C9: environment-snapshot temporary file (MLflowTracker.log_metric) -/

/-- C9 counterexample: with an upload that raises, the temporary snapshot
file still exists after the block (and the exception propagates) — the
claim says the file is removed regardless of upload outcome, but the code
has no `finally`, so `os.remove` is skipped on a raising upload. -/
theorem c9_temp_file_cex :
    logEnvInfoBlock (failingUpload PyErr.runtimeError) ⟨false⟩
      = (⟨true⟩, Except.error PyErr.runtimeError) ∧
    (logEnvInfoBlock (failingUpload PyErr.runtimeError) ⟨false⟩).1.tempExists = true := by
  exact ⟨rfl, rfl⟩

/-- C9 (amended): for any upload that does not itself touch the temporary
file, the block removes the temporary file when the upload succeeds; when
the upload raises, the exception propagates and the temporary file is NOT
removed — it still exists afterwards. -/
theorem c9_temp_file_removal (upload : FsState → FsState × Except PyErr Unit)
    (s : FsState) (hpreserve : ∀ t, (upload t).1 = t) :
    ((upload (writeTempFile s)).2 = Except.ok () →
      logEnvInfoBlock upload s = (⟨false⟩, Except.ok ())) ∧
    (∀ e, (upload (writeTempFile s)).2 = Except.error e →
      logEnvInfoBlock upload s = (⟨true⟩, Except.error e)) := by
  constructor
  · intro hok
    have h1 : upload (writeTempFile s) = (writeTempFile s, Except.ok ()) := by
      have := hpreserve (writeTempFile s)
      rw [Prod.ext_iff]
      exact ⟨this, hok⟩
    simp only [logEnvInfoBlock, h1]
    rfl
  · intro e herr
    have h1 : upload (writeTempFile s) = (writeTempFile s, Except.error e) := by
      have := hpreserve (writeTempFile s)
      rw [Prod.ext_iff]
      exact ⟨this, herr⟩
    simp only [logEnvInfoBlock, h1]
    rfl

/-- C9 witness: the amended theorem applied to a concrete succeeding upload
and a concrete failing upload, from a state with no temporary file. -/
theorem c9_temp_file_removal_inst :
    logEnvInfoBlock (fun s => (s, Except.ok ())) ⟨false⟩ = (⟨false⟩, Except.ok ()) ∧
    logEnvInfoBlock (failingUpload PyErr.runtimeError) ⟨false⟩
      = (⟨true⟩, Except.error PyErr.runtimeError) := by
  constructor
  · exact (c9_temp_file_removal (fun s => (s, Except.ok ())) ⟨false⟩ (fun t => rfl)).1 rfl
  · exact (c9_temp_file_removal (failingUpload PyErr.runtimeError) ⟨false⟩
      (fun t => rfl)).2 PyErr.runtimeError rfl

/-! ### Grouping lemmas shared by save_summary and print_summary -/

theorem groupOf_addToGroups_same (k : String) (m : BenchmarkMetrics)
    (gs : List (String × List BenchmarkMetrics)) :
    groupOf (addToGroups k m gs) k = groupOf gs k ++ [m] := by
  induction gs with
  | nil => simp [addToGroups, groupOf]
  | cons p rest ih =>
    obtain ⟨k0, g⟩ := p
    by_cases h : k0 = k
    · subst h
      simp [addToGroups, groupOf]
    · simp [addToGroups, groupOf, h, ih]

theorem groupOf_addToGroups_other (k : String) (m : BenchmarkMetrics)
    (gs : List (String × List BenchmarkMetrics)) (k2 : String) (hne : k2 ≠ k) :
    groupOf (addToGroups k m gs) k2 = groupOf gs k2 := by
  have hne2 : k ≠ k2 := fun h => hne h.symm
  induction gs with
  | nil => simp [addToGroups, groupOf, hne2]
  | cons p rest ih =>
    obtain ⟨k0, g⟩ := p
    by_cases h : k0 = k
    · subst h
      have h2 : k0 ≠ k2 := fun h2 => hne (h2.symm)
      simp [addToGroups, groupOf, h2]
    · by_cases h2 : k0 = k2
      · subst h2
        simp [addToGroups, groupOf, h]
      · simp [addToGroups, groupOf, h, h2, ih]

theorem keys_addToGroups (k : String) (m : BenchmarkMetrics)
    (gs : List (String × List BenchmarkMetrics)) :
    (addToGroups k m gs).map Prod.fst =
      if k ∈ gs.map Prod.fst then gs.map Prod.fst else gs.map Prod.fst ++ [k] := by
  induction gs with
  | nil => simp [addToGroups]
  | cons p rest ih =>
    obtain ⟨k0, g⟩ := p
    by_cases h : k0 = k
    · subst h
      simp [addToGroups]
    · have h2 : ¬k = k0 := fun h2 => h h2.symm
      simp only [addToGroups, if_neg h, List.map_cons, List.mem_cons, h2, false_or]
      rw [ih]
      by_cases hmem : k ∈ rest.map Prod.fst
      · simp [hmem]
      · simp [hmem]

/-- The invariant maintained by the grouping fold: keys are distinct, a key
is present exactly when some already-processed record has it, and each
group is the in-order filter of the already-processed records. -/
def GroupsInv (key : BenchmarkMetrics → String) (pref : List BenchmarkMetrics)
    (gs : List (String × List BenchmarkMetrics)) : Prop :=
  (gs.map Prod.fst).Nodup ∧
  (∀ k, k ∈ gs.map Prod.fst ↔ ∃ m ∈ pref, key m = k) ∧
  (∀ k, groupOf gs k = pref.filter (fun m => key m = k))

theorem groupsInv_step (key : BenchmarkMetrics → String)
    (pref : List BenchmarkMetrics) (gs : List (String × List BenchmarkMetrics))
    (m : BenchmarkMetrics) (hinv : GroupsInv key pref gs) :
    GroupsInv key (pref ++ [m]) (addToGroups (key m) m gs) := by
  obtain ⟨hnd, hmem, hgrp⟩ := hinv
  refine ⟨?_, ?_, ?_⟩
  · rw [keys_addToGroups]
    by_cases hk : key m ∈ gs.map Prod.fst
    · rw [if_pos hk]; exact hnd
    · rw [if_neg hk]
      simp [List.nodup_append, hnd, hk]
  · intro k
    rw [keys_addToGroups]
    by_cases hk : key m ∈ gs.map Prod.fst
    · rw [if_pos hk]
      rw [hmem k]
      constructor
      · rintro ⟨m2, hm2, hkey⟩
        exact ⟨m2, List.mem_append_left _ hm2, hkey⟩
      · rintro ⟨m2, hm2, hkey⟩
        rcases List.mem_append.mp hm2 with h2 | h2
        · exact ⟨m2, h2, hkey⟩
        · have : m2 = m := List.mem_singleton.mp h2
          subst this
          subst hkey
          exact (hmem (key m2)).mp hk
    · rw [if_neg hk]
      rw [List.mem_append, List.mem_singleton, hmem k]
      constructor
      · rintro (⟨m2, hm2, hkey⟩ | rfl)
        · exact ⟨m2, List.mem_append_left _ hm2, hkey⟩
        · exact ⟨m, List.mem_append_right _ (List.mem_singleton_self m), rfl⟩
      · rintro ⟨m2, hm2, hkey⟩
        rcases List.mem_append.mp hm2 with h2 | h2
        · exact Or.inl ⟨m2, h2, hkey⟩
        · have : m2 = m := List.mem_singleton.mp h2
          subst this
          exact Or.inr hkey.symm
  · intro k
    rw [List.filter_append]
    by_cases hk : k = key m
    · subst hk
      rw [groupOf_addToGroups_same, hgrp]
      simp
    · have hne2 : key m ≠ k := fun h => hk h.symm
      rw [groupOf_addToGroups_other _ _ _ _ hk, hgrp]
      have hnil : List.filter (fun m2 => decide (key m2 = k)) [m] = [] := by
        simp [hne2]
      rw [hnil, List.append_nil]

theorem buildGroups_invariant (key : BenchmarkMetrics → String)
    (ms : List BenchmarkMetrics) :
    ∀ (pref : List BenchmarkMetrics) (gs : List (String × List BenchmarkMetrics)),
      GroupsInv key pref gs →
      GroupsInv key (pref ++ ms)
        (ms.foldl (fun acc m => addToGroups (key m) m acc) gs) := by
  induction ms with
  | nil => intro pref gs h; simpa using h
  | cons m rest ih =>
    intro pref gs h
    have h2 := ih (pref ++ [m]) (addToGroups (key m) m gs) (groupsInv_step key pref gs m h)
    rw [List.append_assoc] at h2
    simpa using h2

theorem buildGroups_spec (key : BenchmarkMetrics → String)
    (ms : List BenchmarkMetrics) : GroupsInv key ms (buildGroups key ms) := by
  have h0 : GroupsInv key [] [] := by
    refine ⟨List.nodup_nil, ?_, ?_⟩
    · intro k; simp
    · intro k; simp [groupOf]
  have h := buildGroups_invariant key ms [] [] h0
  simpa [buildGroups] using h

theorem mem_groupOf_of_nodup (gs : List (String × List BenchmarkMetrics))
    (hnd : (gs.map Prod.fst).Nodup) (p : String × List BenchmarkMetrics)
    (hp : p ∈ gs) : p.2 = groupOf gs p.1 := by
  induction gs with
  | nil => cases hp
  | cons q rest ih =>
    rcases List.mem_cons.mp hp with rfl | hp2
    · obtain ⟨k0, g⟩ := p
      simp [groupOf]
    · have hnd2 : (rest.map Prod.fst).Nodup := (List.nodup_cons.mp hnd).2
      have hq : q.1 ∉ rest.map Prod.fst := (List.nodup_cons.mp hnd).1
      have hne : q.1 ≠ p.1 := by
        intro h
        exact hq (h ▸ List.mem_map_of_mem Prod.fst hp2)
      obtain ⟨k0, g⟩ := q
      simp only [groupOf, if_neg hne]
      exact ih hnd2 hp2

theorem mem_buildGroups_filter (key : BenchmarkMetrics → String)
    (ms : List BenchmarkMetrics) (p : String × List BenchmarkMetrics)
    (hp : p ∈ buildGroups key ms) :
    p.2 = ms.filter (fun m => key m = p.1) ∧ (∃ m ∈ ms, key m = p.1) := by
  obtain ⟨hnd, hmem, hgrp⟩ := buildGroups_spec key ms
  constructor
  · rw [mem_groupOf_of_nodup _ hnd p hp, hgrp]
  · exact (hmem p.1).mp (List.mem_map_of_mem Prod.fst hp)

/-! ### Statistics lemmas (min/max folds, stats triple) -/

theorem foldl_min_mem (vs : List ℚ) : ∀ v : ℚ, vs.foldl min v ∈ v :: vs := by
  induction vs with
  | nil => intro v; simp
  | cons x xs ih =>
    intro v
    rw [List.foldl_cons]
    rcases List.mem_cons.mp (ih (min v x)) with h1 | h1
    · rw [h1]
      rcases min_choice v x with hc | hc <;> rw [hc]
      · exact List.mem_cons_self _ _
      · exact List.mem_cons_of_mem _ (List.mem_cons_self _ _)
    · exact List.mem_cons_of_mem _ (List.mem_cons_of_mem _ h1)

theorem foldl_min_le (vs : List ℚ) :
    ∀ v : ℚ, ∀ b ∈ v :: vs, vs.foldl min v ≤ b := by
  induction vs with
  | nil =>
    intro v b hb
    rw [List.mem_singleton.mp hb]
    exact le_refl _
  | cons x xs ih =>
    intro v b hb
    rw [List.foldl_cons]
    rcases List.mem_cons.mp hb with heq | hb2
    · rw [heq]
      exact le_trans (ih (min v x) (min v x) (List.mem_cons_self _ _)) (min_le_left v x)
    · rcases List.mem_cons.mp hb2 with heq | hb3
      · rw [heq]
        exact le_trans (ih (min v x) (min v x) (List.mem_cons_self _ _)) (min_le_right v x)
      · exact ih (min v x) b (List.mem_cons_of_mem _ hb3)

theorem foldl_max_mem (vs : List ℚ) : ∀ v : ℚ, vs.foldl max v ∈ v :: vs := by
  induction vs with
  | nil => intro v; simp
  | cons x xs ih =>
    intro v
    rw [List.foldl_cons]
    rcases List.mem_cons.mp (ih (max v x)) with h1 | h1
    · rw [h1]
      rcases max_choice v x with hc | hc <;> rw [hc]
      · exact List.mem_cons_self _ _
      · exact List.mem_cons_of_mem _ (List.mem_cons_self _ _)
    · exact List.mem_cons_of_mem _ (List.mem_cons_of_mem _ h1)

theorem foldl_max_ge (vs : List ℚ) :
    ∀ v : ℚ, ∀ b ∈ v :: vs, b ≤ vs.foldl max v := by
  induction vs with
  | nil =>
    intro v b hb
    rw [List.mem_singleton.mp hb]
    exact le_refl _
  | cons x xs ih =>
    intro v b hb
    rw [List.foldl_cons]
    rcases List.mem_cons.mp hb with heq | hb2
    · rw [heq]
      exact le_trans (le_max_left v x) (ih (max v x) (max v x) (List.mem_cons_self _ _))
    · rcases List.mem_cons.mp hb2 with heq | hb3
      · rw [heq]
        exact le_trans (le_max_right v x) (ih (max v x) (max v x) (List.mem_cons_self _ _))
      · exact ih (max v x) b (List.mem_cons_of_mem _ hb3)

/-- `statsOf` satisfies the statistics contract on any value list. -/
theorem statsOf_withStats (vals : List ℚ) : withStats (statsOf vals) vals := by
  cases vals with
  | nil => exact ⟨fun _ => rfl, fun h => absurd rfl h⟩
  | cons v vs =>
    refine ⟨fun h => absurd h (List.cons_ne_nil v vs), fun _ => ⟨rfl, ?_, ?_⟩⟩
    · exact ⟨vs.foldl min v, foldl_min_mem vs v, rfl, foldl_min_le vs v⟩
    · exact ⟨vs.foldl max v, foldl_max_mem vs v, rfl, fun b hb => foldl_max_ge vs v b hb⟩

/-- Membership in the truthiness-filtered value list. -/
theorem mem_truthyVals (sel : BenchmarkMetrics → Option ℚ)
    (g : List BenchmarkMetrics) (x : ℚ) :
    x ∈ truthyVals sel g ↔ ∃ m ∈ g, sel m = some x ∧ x ≠ 0 := by
  unfold truthyVals
  rw [List.mem_filterMap]
  constructor
  · rintro ⟨m, hm, hx⟩
    cases hsel : sel m with
    | none => rw [hsel] at hx; cases hx
    | some y =>
      rw [hsel] at hx
      dsimp only at hx
      by_cases hy : y ≠ 0
      · rw [if_pos hy] at hx
        cases hx
        exact ⟨m, hm, hsel, hy⟩
      · rw [if_neg hy] at hx
        cases hx
  · rintro ⟨m, hm, hsel, hx⟩
    refine ⟨m, hm, ?_⟩
    rw [hsel]
    dsimp only
    rw [if_pos hx]

/-- `filterMap` over a list where the function is total returns a list of
the same length. -/
theorem length_filterMap_of_isSome {α β : Type} (f : α → Option β) (l : List α)
    (h : ∀ a ∈ l, (f a).isSome) : (l.filterMap f).length = l.length := by
  induction l with
  | nil => rfl
  | cons a l ih =>
    have ha := h a (List.mem_cons_self a l)
    cases hfa : f a with
    | none => rw [hfa] at ha; cases ha
    | some b =>
      rw [List.filterMap_cons, hfa]
      simp only [List.length_cons]
      rw [ih (fun a2 ha2 => h a2 (List.mem_cons_of_mem a ha2))]

/-- A nodup list over exactly two distinct present values has length two. -/
theorem length_eq_two_of_two_keys (ks : List String) (k1 k2 : String)
    (hnd : ks.Nodup) (hne : k1 ≠ k2) (hsub : ∀ x ∈ ks, x = k1 ∨ x = k2)
    (h1 : k1 ∈ ks) (h2 : k2 ∈ ks) : ks.length = 2 := by
  have hfin : ks.toFinset = {k1, k2} := by
    ext x
    simp only [List.mem_toFinset, Finset.mem_insert, Finset.mem_singleton]
    constructor
    · exact hsub x
    · rintro (rfl | rfl)
      · exact h1
      · exact h2
  calc ks.length = ks.toFinset.card := (List.toFinset_card_of_nodup hnd).symm
    _ = ({k1, k2} : Finset String).card := by rw [hfin]
    _ = 2 := Finset.card_pair hne

/-- `summaryOfGroup` is `some` exactly on non-empty groups, and the entry
carries the group size as `count` and the group statistics. -/
theorem summaryOfGroup_spec (g : List BenchmarkMetrics) (e : SummaryEntry)
    (h : summaryOfGroup g = some e) :
    e.count = g.length ∧
    e.tokens_per_second = statsOf (truthyVals (fun m => m.tokens_per_second) g) ∧
    e.time_per_token_ms = statsOf (truthyVals (fun m => m.time_per_token) g) ∧
    e.first_token_latency_sec
      = statsOf (truthyVals (fun m => m.first_token_latency) g) := by
  cases g with
  | nil => cases h
  | cons m0 rest =>
    simp only [summaryOfGroup] at h
    injection h with h2
    subst h2
    exact ⟨rfl, rfl, rfl, rfl⟩

/-- Membership in `save_summary` comes from a non-empty group of
`buildGroups sixKey`. -/
theorem mem_save_summary (c : MetricsCollector) (p : String × SummaryEntry)
    (hp : p ∈ c.save_summary) :
    ∃ g, (p.1, g) ∈ buildGroups sixKey c.metrics ∧ summaryOfGroup g = some p.2 := by
  unfold MetricsCollector.save_summary at hp
  rcases List.mem_filterMap.mp hp with ⟨q, hq, hfq⟩
  cases hsg : summaryOfGroup q.2 with
  | none => rw [hsg] at hfq; cases hfq
  | some e =>
    rw [hsg] at hfq
    have h2 : (q.1, e) = p := Option.some.inj hfq
    have h1 : q.1 = p.1 ∧ e = p.2 :=
      ⟨congrArg Prod.fst h2, congrArg Prod.snd h2⟩
    refine ⟨q.2, ?_, ?_⟩
    · rw [← h1.1]
      exact hq
    · rw [hsg, h1.2]

/-! ### C5: save_summary grouping by the composite key -/

/-- C5 (amended): for every collector whose records span exactly two
distinct composite KEY STRINGS (two distinct six-field configurations
whose key strings differ — configurations whose fields contain underscores
can collide into one string), `save_summary` has exactly two entries, and
each entry's count is the number of records with that key string. -/
theorem c5_two_config_groups (c : MetricsCollector) (k1 k2 : String)
    (hne : k1 ≠ k2)
    (hspan : ∀ m ∈ c.metrics, sixKey m = k1 ∨ sixKey m = k2)
    (h1 : ∃ m ∈ c.metrics, sixKey m = k1)
    (h2 : ∃ m ∈ c.metrics, sixKey m = k2) :
    c.save_summary.length = 2 ∧
    ∀ p ∈ c.save_summary,
      p.2.count = (c.metrics.filter (fun m => sixKey m = p.1)).length := by
  obtain ⟨hnd, hmem, hgrp⟩ := buildGroups_spec sixKey c.metrics
  constructor
  · have hlen1 : c.save_summary.length = (buildGroups sixKey c.metrics).length := by
      unfold MetricsCollector.save_summary
      apply length_filterMap_of_isSome
      intro p hp
      obtain ⟨hfil, hex⟩ := mem_buildGroups_filter sixKey c.metrics p hp
      obtain ⟨m, hm, hkey⟩ := hex
      have hmm : m ∈ p.2 := by
        rw [hfil]
        exact List.mem_filter.mpr ⟨hm, by simp [hkey]⟩
      cases hp2 : p.2 with
      | nil => rw [hp2] at hmm; cases hmm
      | cons a l => rfl
    rw [hlen1, ← List.length_map (buildGroups sixKey c.metrics) Prod.fst]
    apply length_eq_two_of_two_keys _ k1 k2 hnd hne
    · intro x hx
      obtain ⟨m, hm, hkey⟩ := (hmem x).mp hx
      rw [← hkey]
      exact hspan m hm
    · exact (hmem k1).mpr h1
    · exact (hmem k2).mpr h2
  · intro p hp
    obtain ⟨g, hg, hsg⟩ := mem_save_summary c p hp
    obtain ⟨hcount, _, _, _⟩ := summaryOfGroup_spec g p.2 hsg
    obtain ⟨hfil, _⟩ := mem_buildGroups_filter sixKey c.metrics (p.1, g) hg
    rw [hcount]
    exact congrArg List.length hfil

/-- C5 counterexample: two records with DIFFERENT six-field configurations
(instance_type `a_b` with serving_mode `c`, versus instance_type `a` with
serving_mode `b_c`) produce the SAME composite key string, so
`save_summary` on a collector spanning these two distinct configurations
has one entry, not two. -/
theorem c5_group_key_cex :
    configKey c5CexR1 ≠ configKey c5CexR2 ∧
    sixKey c5CexR1 = sixKey c5CexR2 ∧
    c5CexCollector.save_summary.length = 1 := by
  refine ⟨by decide, by decide, by decide⟩

/-- C5 witness: the amended theorem applied to a collector with two
batch-1 records and one batch-2 record. -/
theorem c5_two_config_groups_inst :
    c5WitnessCollector.save_summary.length = 2 ∧
    ∀ p ∈ c5WitnessCollector.save_summary,
      p.2.count
        = (c5WitnessCollector.metrics.filter (fun m => sixKey m = p.1)).length := by
  exact c5_two_config_groups c5WitnessCollector presetKey c5WitnessKey2
    (by decide) (by decide) (by decide) (by decide)

/-! ### C2: save_summary statistics over truthy values -/

/-- C2 (amended): every entry of `save_summary` reports, for each of the
three metrics, mean/min/max computed over exactly the TRUTHY (non-null AND
non-zero) values of that field among the group's records (the source
filters with `if m.<field>`, so a present `0.0` is excluded like `None`);
a group with no truthy value for a metric reports all three statistics as
null, and the computation is total (never raises, `withStats` handles the
empty list). -/
theorem c2_truthy_stats (c : MetricsCollector) (p : String × SummaryEntry)
    (hp : p ∈ c.save_summary) :
    withStats p.2.tokens_per_second
      (truthyVals (fun m => m.tokens_per_second)
        (c.metrics.filter (fun m => sixKey m = p.1))) ∧
    withStats p.2.time_per_token_ms
      (truthyVals (fun m => m.time_per_token)
        (c.metrics.filter (fun m => sixKey m = p.1))) ∧
    withStats p.2.first_token_latency_sec
      (truthyVals (fun m => m.first_token_latency)
        (c.metrics.filter (fun m => sixKey m = p.1))) ∧
    (∀ sel : BenchmarkMetrics → Option ℚ, ∀ x : ℚ,
      x ∈ truthyVals sel (c.metrics.filter (fun m => sixKey m = p.1)) ↔
        ∃ m ∈ c.metrics.filter (fun m => sixKey m = p.1),
          sel m = some x ∧ x ≠ 0) := by
  obtain ⟨g, hg, hsg⟩ := mem_save_summary c p hp
  obtain ⟨hcount, htps, htpt, hftl⟩ := summaryOfGroup_spec g p.2 hsg
  obtain ⟨hfil, _⟩ := mem_buildGroups_filter sixKey c.metrics (p.1, g) hg
  rw [← hfil, htps, htpt, hftl]
  exact ⟨statsOf_withStats _, statsOf_withStats _, statsOf_withStats _,
    fun sel x => mem_truthyVals sel _ x⟩

/-- C2 counterexample: a group whose single record has a NON-NULL
`first_token_latency = 0.0` still reports `{mean: None, min: None, max:
None}` for that metric — the claim says statistics range over all non-null
values, which would give `0.0` for all three. -/
theorem c2_nonnull_stats_cex :
    c2CexRecord.first_token_latency = some 0 ∧
    c2CexCollector.save_summary.map (fun p => p.2.first_token_latency_sec)
      = [⟨none, none, none⟩] := by
  exact ⟨rfl, by decide⟩

/-- C2 witness: the amended theorem applied to a one-record collector whose
record has truthy `tokens_per_second = 10`, `time_per_token = 100`,
`first_token_latency = 1`. -/
theorem c2_truthy_stats_inst :
    withStats c2WitnessEntry.tokens_per_second
      (truthyVals (fun m => m.tokens_per_second)
        (c2WitnessCollector.metrics.filter (fun m => sixKey m = presetKey))) ∧
    withStats c2WitnessEntry.time_per_token_ms
      (truthyVals (fun m => m.time_per_token)
        (c2WitnessCollector.metrics.filter (fun m => sixKey m = presetKey))) ∧
    withStats c2WitnessEntry.first_token_latency_sec
      (truthyVals (fun m => m.first_token_latency)
        (c2WitnessCollector.metrics.filter (fun m => sixKey m = presetKey))) ∧
    (∀ sel : BenchmarkMetrics → Option ℚ, ∀ x : ℚ,
      x ∈ truthyVals sel (c2WitnessCollector.metrics.filter
          (fun m => sixKey m = presetKey)) ↔
        ∃ m ∈ c2WitnessCollector.metrics.filter (fun m => sixKey m = presetKey),
          sel m = some x ∧ x ≠ 0) := by
  have heval : c2WitnessCollector.save_summary = [(presetKey, c2WitnessEntry)] := by
    with_unfolding_all rfl
  have hp : (presetKey, c2WitnessEntry) ∈ c2WitnessCollector.save_summary := by
    rw [heval]
    exact List.mem_singleton_self _
  exact c2_truthy_stats c2WitnessCollector (presetKey, c2WitnessEntry) hp

/-! ### Sorting lemmas for print_summary -/

theorem insertPair_perm (p : String × List BenchmarkMetrics)
    (l : List (String × List BenchmarkMetrics)) :
    List.Perm (insertPair p l) (p :: l) := by
  induction l with
  | nil => exact List.Perm.refl _
  | cons q rest ih =>
    unfold insertPair
    split
    · exact List.Perm.refl _
    · exact List.Perm.trans (List.Perm.cons q ih) (List.Perm.swap p q rest)

theorem sortPairs_perm (l : List (String × List BenchmarkMetrics)) :
    List.Perm (sortPairs l) l := by
  induction l with
  | nil => exact List.Perm.refl _
  | cons p rest ih =>
    exact List.Perm.trans (insertPair_perm p (sortPairs rest)) (List.Perm.cons p ih)

theorem insertPair_sorted (p : String × List BenchmarkMetrics)
    (l : List (String × List BenchmarkMetrics))
    (h : List.Pairwise (fun a b => a.1 ≤ b.1) l) :
    List.Pairwise (fun a b => a.1 ≤ b.1) (insertPair p l) := by
  induction l with
  | nil => simp [insertPair]
  | cons q rest ih =>
    rw [List.pairwise_cons] at h
    unfold insertPair
    by_cases hle : p.1 ≤ q.1
    · rw [if_pos hle]
      refine List.Pairwise.cons ?_ (List.Pairwise.cons h.1 h.2)
      intro b hb
      rcases List.mem_cons.mp hb with heq | hb2
      · rw [heq]; exact hle
      · exact le_trans hle (h.1 b hb2)
    · rw [if_neg hle]
      have hq : q.1 ≤ p.1 := le_of_not_le hle
      refine List.Pairwise.cons ?_ (ih h.2)
      intro b hb
      rcases List.mem_cons.mp ((insertPair_perm p rest).mem_iff.mp hb) with heq | hb2
      · rw [heq]; exact hq
      · exact h.1 b hb2

theorem sortPairs_sorted (l : List (String × List BenchmarkMetrics)) :
    List.Pairwise (fun a b => a.1 ≤ b.1) (sortPairs l) := by
  induction l with
  | nil => simp [sortPairs]
  | cons p rest ih => exact insertPair_sorted p (sortPairs rest) ih

/-! ### mapExcept and formatLine lemmas -/

theorem mapExcept_ok_of_forall {α β : Type} (f : α → Except PyErr β) (l : List α)
    (h : ∀ a ∈ l, ∃ b, f a = Except.ok b) :
    ∃ bs, mapExcept f l = Except.ok bs := by
  induction l with
  | nil => exact ⟨[], rfl⟩
  | cons a rest ih =>
    obtain ⟨b, hb⟩ := h a (List.mem_cons_self a rest)
    obtain ⟨bs, hbs⟩ := ih (fun x hx => h x (List.mem_cons_of_mem a hx))
    refine ⟨b :: bs, ?_⟩
    simp only [mapExcept, hb, hbs]

theorem mapExcept_ok_forall₂ {α β : Type} (f : α → Except PyErr β)
    (l : List α) (bs : List β) (h : mapExcept f l = Except.ok bs) :
    List.Forall₂ (fun a b => f a = Except.ok b) l bs := by
  induction l generalizing bs with
  | nil =>
    simp only [mapExcept] at h
    injection h with h2
    subst h2
    exact List.Forall₂.nil
  | cons a rest ih =>
    cases hfa : f a with
    | error e =>
      simp only [mapExcept, hfa] at h
      cases h
    | ok b =>
      cases hrest : mapExcept f rest with
      | error e =>
        simp only [mapExcept, hfa, hrest] at h
        cases h
      | ok bs2 =>
        simp only [mapExcept, hfa, hrest] at h
        injection h with h2
        subst h2
        exact List.Forall₂.cons hfa (ih bs2 hrest)

/-- The per-group step of `print_summary` succeeds on groups whose records
all format, with the group key preserved; applied pointwise to the whole
group list. -/
theorem mapExcept_outer_spec (gs : List (String × List BenchmarkMetrics))
    (out : List (String × List SummaryLine))
    (h : mapExcept
        (fun p => (mapExcept formatLine p.2).map (fun lines => (p.1, lines)))
        gs = Except.ok out) :
    out.map Prod.fst = gs.map Prod.fst ∧
    ∀ q ∈ out, ∃ p, p ∈ gs ∧ p.1 = q.1 ∧
      mapExcept formatLine p.2 = Except.ok q.2 := by
  have hf := mapExcept_ok_forall₂ _ gs out h
  clear h
  induction hf with
  | nil =>
    refine ⟨rfl, ?_⟩
    intro q hq
    cases hq
  | cons h1 h2 ih =>
    rename_i a b l1 l2
    have hab : a.1 = b.1 ∧ mapExcept formatLine a.2 = Except.ok b.2 := by
      cases hml : mapExcept formatLine a.2 with
      | error e =>
        rw [hml] at h1
        cases h1
      | ok lines =>
        rw [hml] at h1
        have h3 : (a.1, lines) = b := Except.ok.inj h1
        constructor
        · rw [← h3]
        · rw [← h3]
    constructor
    · simp only [List.map_cons]
      rw [hab.1, ih.1]
    · intro q hq
      rcases List.mem_cons.mp hq with heq | hq2
      · refine ⟨a, List.mem_cons_self a l1, ?_⟩
        rw [heq]
        exact hab
      · obtain ⟨p, hp, hpq⟩ := ih.2 q hq2
        exact ⟨p, List.mem_cons_of_mem a hp, hpq⟩

theorem formatLine_ok (m : BenchmarkMetrics) (h1 : m.tokens_per_second ≠ none)
    (h2 : m.time_per_token ≠ none) : ∃ l, formatLine m = Except.ok l := by
  cases ht : m.tokens_per_second with
  | none => exact absurd ht h1
  | some a =>
    cases ht2 : m.time_per_token with
    | none => exact absurd ht2 h2
    | some b =>
      refine ⟨{ batch_size := m.batch_size, input_length := m.input_length,
                actual_output_tokens := m.actual_output_tokens,
                max_output_tokens := m.max_output_tokens,
                cacheMark := if m.enable_prefix_caching then "✓" else "✗",
                tokens_per_second := a, time_per_token := b }, ?_⟩
      simp only [formatLine, ht, ht2]

/-! ### C8: print_summary shape -/

/-- C8 (amended): provided every record's `tokens_per_second` and
`time_per_token` are non-`None` (otherwise formatting raises, see C10), and
with grouping understood as by the CONCATENATED key string
`instance_type ++ "_" ++ serving_mode` (distinct two-field pairs can
collide into one string): `print_summary` on an empty collector prints
only the informational message; otherwise it reports every record, grouped
by the key string, iterating groups in strictly increasing lexicographic
key order, and within a group prints exactly the records with that key in
insertion order (not aggregated). -/
theorem c8_print_summary_shape (c : MetricsCollector)
    (hdef : ∀ m ∈ c.metrics, m.tokens_per_second ≠ none ∧ m.time_per_token ≠ none) :
    (c.metrics = [] → c.print_summary = Except.ok PrintedSummary.noMetrics) ∧
    (c.metrics ≠ [] → ∃ out,
      c.print_summary = Except.ok (PrintedSummary.report c.metrics.length out) ∧
      List.Pairwise (fun a b => a < b) (out.map Prod.fst) ∧
      (∀ k, k ∈ out.map Prod.fst ↔ ∃ m ∈ c.metrics, pairKey m = k) ∧
      ∀ q ∈ out, mapExcept formatLine
          (c.metrics.filter (fun m => pairKey m = q.1)) = Except.ok q.2) := by
  obtain ⟨hnd, hmem, hgrp⟩ := buildGroups_spec pairKey c.metrics
  constructor
  · intro h
    unfold MetricsCollector.print_summary
    rw [h]
  · intro hne
    have hok : ∀ p ∈ sortPairs (buildGroups pairKey c.metrics),
        ∃ b, (mapExcept formatLine p.2).map (fun lines => (p.1, lines))
          = Except.ok b := by
      intro p hp
      have hpbg : p ∈ buildGroups pairKey c.metrics :=
        (sortPairs_perm _).mem_iff.mp hp
      obtain ⟨hfil, _⟩ := mem_buildGroups_filter pairKey c.metrics p hpbg
      have hrec : ∀ m ∈ p.2, ∃ l, formatLine m = Except.ok l := by
        intro m hm
        rw [hfil] at hm
        obtain ⟨h1, h2⟩ := hdef m (List.mem_filter.mp hm).1
        exact formatLine_ok m h1 h2
      obtain ⟨lines, hlines⟩ := mapExcept_ok_of_forall formatLine p.2 hrec
      refine ⟨(p.1, lines), ?_⟩
      rw [hlines]
      rfl
    obtain ⟨out, hout⟩ := mapExcept_ok_of_forall _ _ hok
    obtain ⟨hfst, hcontent⟩ := mapExcept_outer_spec _ out hout
    have hps : c.print_summary
        = Except.ok (PrintedSummary.report c.metrics.length out) := by
      unfold MetricsCollector.print_summary
      cases hms : c.metrics with
      | nil => exact absurd hms hne
      | cons m0 rest =>
        rw [hms] at hout
        rw [hout]
    refine ⟨out, hps, ?_, ?_, ?_⟩
    · have hsfst : List.Pairwise (fun a b : String => a ≤ b)
          ((sortPairs (buildGroups pairKey c.metrics)).map Prod.fst) := by
        rw [List.pairwise_map]
        exact sortPairs_sorted (buildGroups pairKey c.metrics)
      have hndsort : ((sortPairs (buildGroups pairKey c.metrics)).map Prod.fst).Nodup := by
        have hperm := (sortPairs_perm (buildGroups pairKey c.metrics)).map Prod.fst
        exact (hperm.nodup_iff).mpr hnd
      rw [hfst]
      have hand := List.Pairwise.and hsfst hndsort
      exact hand.imp (fun h => lt_of_le_of_ne h.1 h.2)
    · intro k
      rw [hfst]
      have hpm : k ∈ (sortPairs (buildGroups pairKey c.metrics)).map Prod.fst ↔
          k ∈ (buildGroups pairKey c.metrics).map Prod.fst :=
        ((sortPairs_perm _).map Prod.fst).mem_iff
      rw [hpm]
      exact hmem k
    · intro q hq
      obtain ⟨p, hp, hpq1, hpq2⟩ := hcontent q hq
      have hpbg : p ∈ buildGroups pairKey c.metrics :=
        (sortPairs_perm _).mem_iff.mp hp
      obtain ⟨hfil, _⟩ := mem_buildGroups_filter pairKey c.metrics p hpbg
      rw [← hpq1, ← hfil]
      exact hpq2

/-- C8 counterexample: (i) on a reachable collector holding a record with
`tokens_per_second = None` (added with `actual_output_tokens = 0`),
`print_summary` raises instead of printing every record; (ii) two records
whose `(instance_type, serving_mode)` pairs DIFFER (`("a_b", "c")` vs
`("a", "b_c")`) are merged into a single printed group, because grouping is
by the concatenated string, not by the two-field key. -/
theorem c8_print_summary_cex :
    zeroOutputCollector.print_summary = Except.error PyErr.typeError ∧
    (c5CexR1.instance_type, c5CexR1.serving_mode)
      ≠ (c5CexR2.instance_type, c5CexR2.serving_mode) ∧
    c5CexCollector.print_summary
      = Except.ok (PrintedSummary.report 2
          [("a_b_c", [⟨1, 32, 0, 32, "✗", 10, 100⟩, ⟨1, 32, 0, 32, "✗", 10, 100⟩])]) := by
  refine ⟨by with_unfolding_all rfl, by decide, by with_unfolding_all rfl⟩

/-- C8 witness: the amended theorem applied to a collector with three
records of one `(g5.xlarge, offline)` configuration and varying batch
sizes. -/
theorem c8_print_summary_shape_inst :
    ∃ out, c8WitnessCollector.print_summary
        = Except.ok (PrintedSummary.report c8WitnessCollector.metrics.length out) ∧
      List.Pairwise (fun a b => a < b) (out.map Prod.fst) ∧
      (∀ k, k ∈ out.map Prod.fst ↔ ∃ m ∈ c8WitnessCollector.metrics, pairKey m = k) ∧
      ∀ q ∈ out, mapExcept formatLine
          (c8WitnessCollector.metrics.filter (fun m => pairKey m = q.1))
        = Except.ok q.2 := by
  exact (c8_print_summary_shape c8WitnessCollector (by decide)).2 (by decide)

/-! ### C10: print_summary is not total -/

/-- C10: `print_summary` raises on a reachable collector state — a record
added through `add_metric` with `actual_output_tokens = 0` keeps
`tokens_per_second = None` and `time_per_token = None` (the derived-metric
guard leaves them unset), and formatting it raises `TypeError` instead of
printing. -/
theorem c10_print_summary_partial :
    (zeroOutputRecord.compute_derived_metrics).tokens_per_second = none ∧
    (zeroOutputRecord.compute_derived_metrics).time_per_token = none ∧
    zeroOutputCollector.metrics = [zeroOutputRecord.compute_derived_metrics] ∧
    zeroOutputCollector.print_summary = Except.error PyErr.typeError := by
  exact ⟨by decide, by decide, rfl, by with_unfolding_all rfl⟩

/-- C7 witness: the theorem applied at `sampleRecord` and field name
`notes` (whose value is absent). -/
theorem c7_to_dict_total_keys_inst :
    ∃ v, (sampleRecord.to_dict).lookup "notes" = some v :=
  (c7_to_dict_total_keys sampleRecord).2.1 "notes" (by decide)
